import Mathlib

/-!
Verification of the crypto swing tracker core (src/types.ts,
src/services/geminiService.ts).

The service file contains two variants of the `performAnalysis` pipeline:

* the per-card variant (calendar-day `daysTaken`, marked with a `FIX`
  comment in the source, per-event enrichment with an outstanding-research
  counter), embedded below with the suffix `V1`;
* the batched variant (index-distance `daysTaken`, one batched
  `fetchSwingsContext` request for the first 15 events), embedded with the
  suffix `V2`.

Prices and percentages are JS numbers in the source; they are embedded as
rationals.  Dates are ISO `YYYY-MM-DD` strings at day resolution in the
source; they are embedded as year/month/day triples together with the
proleptic-Gregorian day number that `Date.parse` assigns to such strings.
-/

namespace CryptoSwing

/-- PricePoint from src/types.ts: a date together with a closing price. -/
structure Date where
  year : ℕ
  month : ℕ
  day : ℕ
deriving DecidableEq, Repr

structure PricePoint where
  date : Date
  price : ℚ
deriving DecidableEq, Repr

/-- MovementType from src/types.ts. -/
inductive MovementType where
  | UP
  | DOWN
deriving DecidableEq, Repr

/-- MovementEvent from src/types.ts; `context` is absent (`none`) until
enrichment fills it in. -/
structure MovementEvent where
  startDate : Date
  endDate : Date
  startPrice : ℚ
  endPrice : ℚ
  type : MovementType
  percentageChange : ℚ
  daysTaken : ℕ
  context : Option String := none
deriving DecidableEq, Repr

/-- AnalysisResult from src/types.ts. -/
structure AnalysisResult where
  ticker : String
  year : ℤ
  targetPercentage : ℚ
  data : List PricePoint
  movements : List MovementEvent
deriving DecidableEq, Repr

/-! ### Calendar arithmetic

`new Date("YYYY-MM-DD")` parses an ISO day-resolution string to a UTC
timestamp of `d * 86400000` milliseconds where `d` is the proleptic
Gregorian day number relative to 1970-01-01.  `daysFromCivil` is that day
number shifted so that it is a natural number for all years ≥ 1. -/

def isLeap (y : ℕ) : Bool :=
  (y % 4 == 0 && y % 100 != 0) || (y % 400 == 0)

def monthLengths (leap : Bool) : List ℕ :=
  [31, if leap then 29 else 28, 31, 30, 31, 30, 31, 31, 30, 31, 30, 31]

/-- Day number of a Gregorian civil date, counted from 0001-01-01 (day 0). -/
def daysFromCivil (d : Date) : ℕ :=
  let y := d.year - 1
  365 * y + (y / 4 - y / 100 + y / 400)
    + ((monthLengths (isLeap d.year)).take (d.month - 1)).sum + (d.day - 1)

/-- Millisecond timestamp of `new Date(isoString).getTime()` for a
day-resolution ISO date. -/
def jsDateMs (d : Date) : ℤ :=
  ((daysFromCivil d : ℤ) - (daysFromCivil ⟨1970, 1, 1⟩ : ℤ)) * 86400000

/-- `Math.ceil(Math.abs(end.getTime() - start.getTime()) / (1000*60*60*24))`
from the per-card variant (src/services/geminiService.ts, segmentation
loop). -/
def diffDaysJs (s e : Date) : ℕ :=
  (⌈(((jsDateMs e - jsDateMs s).natAbs : ℚ) / (1000 * 60 * 60 * 24))⌉).toNat

/-- The true calendar-day span between two day-resolution dates. -/
def calendarSpan (s e : Date) : ℕ :=
  ((daysFromCivil e : ℤ) - (daysFromCivil s : ℤ)).natAbs

/-! ### SwingSegmenter, calendar-day variant

Embeds the segmentation loop of the per-card `performAnalysis`
(src/services/geminiService.ts): `baseIndex` starts at 0, each index `i ≥ 1`
is compared against the floating base, and a MovementEvent is emitted (and
the base moved) whenever `|change| >= target`.  The recursion walks the
tail of the series carrying the current base point. -/

def segAuxV1 (target : ℚ) : List PricePoint → PricePoint → List MovementEvent
  | [], _ => []
  | p :: rest, base =>
    let change := (p.price - base.price) / base.price
    if |change| ≥ target then
      { startDate := base.date
        endDate := p.date
        startPrice := base.price
        endPrice := p.price
        type := if 0 < change then MovementType.UP else MovementType.DOWN
        percentageChange := change * 100
        daysTaken := diffDaysJs base.date p.date } :: segAuxV1 target rest p
    else
      segAuxV1 target rest base

def segmentV1 (data : List PricePoint) (target : ℚ) : List MovementEvent :=
  match data with
  | [] => []
  | base :: rest => segAuxV1 target rest base

/-! ### SwingSegmenter, index-distance variant

Embeds the segmentation loop of the batched `performAnalysis`: identical
except that `daysTaken := i - baseIndex` (sample-index distance).  The
recursion additionally carries the current index `i` and the base index. -/

def segAuxV2 (target : ℚ) : List PricePoint → ℕ → PricePoint → ℕ → List MovementEvent
  | [], _, _, _ => []
  | p :: rest, i, base, baseIdx =>
    let change := (p.price - base.price) / base.price
    if |change| ≥ target then
      { startDate := base.date
        endDate := p.date
        startPrice := base.price
        endPrice := p.price
        type := if 0 < change then MovementType.UP else MovementType.DOWN
        percentageChange := change * 100
        daysTaken := i - baseIdx } :: segAuxV2 target rest (i + 1) p i
    else
      segAuxV2 target rest (i + 1) base baseIdx

def segmentV2 (data : List PricePoint) (target : ℚ) : List MovementEvent :=
  match data with
  | [] => []
  | base :: rest => segAuxV2 target rest 1 base 0

/-- All MovementEvent fields except `daysTaken`; used to compare the two
segmentation variants. -/
structure EventCore where
  startDate : Date
  endDate : Date
  startPrice : ℚ
  endPrice : ℚ
  type : MovementType
  percentageChange : ℚ
  context : Option String
deriving DecidableEq, Repr

def stripEvent (e : MovementEvent) : EventCore :=
  ⟨e.startDate, e.endDate, e.startPrice, e.endPrice, e.type, e.percentageChange, e.context⟩

/-- A price series is sorted when its dates are in ascending chronological
order. -/
def sortedByDate (data : List PricePoint) : Prop :=
  data.Chain' fun a b => daysFromCivil a.date ≤ daysFromCivil b.date


/-! ### EnrichmentOrchestrator, per-card variant

`initialMovements.slice(0, 15)` is submitted, one request per event; each
settlement writes `movements[index].context`.  `enrichPerCard` is the state
of the movements array after all submitted requests have settled, given the
string each request resolved to (`fetchSingleMovementContext` never rejects,
so every submitted index resolves to some string). -/

def movesToResearch (movements : List MovementEvent) : List MovementEvent :=
  movements.take 15

def enrichPerCardAux (resolved : ℕ → String) (k : ℕ) :
    List MovementEvent → ℕ → List MovementEvent
  | [], _ => []
  | m :: rest, idx =>
    (if idx < k then { m with context := some (resolved idx) } else m)
      :: enrichPerCardAux resolved k rest (idx + 1)

def enrichPerCard (movements : List MovementEvent) (resolved : ℕ → String) :
    List MovementEvent :=
  enrichPerCardAux resolved (movesToResearch movements).length movements 0

/-- `setActiveResearchCount(movesToResearch.length)`. -/
def activeResearchInit (movements : List MovementEvent) : ℤ :=
  ((movesToResearch movements).length : ℤ)

/-- `setActiveResearchCount(prev => Math.max(0, prev - 1))`, run once by the
`.finally` handler of each settled request. -/
def settleStep (c : ℤ) : ℤ :=
  max 0 (c - 1)

/-- The counter after a sequence of settlements (`true` = fulfilled,
`false` = rejected; the decrement ignores the outcome). -/
def settleAll (outcomes : List Bool) (c : ℤ) : ℤ :=
  outcomes.foldl (fun acc _ => settleStep acc) c

/-! ### EnrichmentOrchestrator, batched variant

`movements.slice(0, 15)` goes into one batched `fetchSwingsContext` request;
the reply array is merged over the whole movements list by
`contexts[idx] || (idx >= 15 ? ... : ...)`. -/

def movementsToContextualize (movements : List MovementEvent) : List MovementEvent :=
  movements.take 15

def limitedFallback : String :=
  "Detailed context limited to first 15 swings."

def noEventsFallback : String :=
  "No specific events identified."

/-- JS `v || fb` for a possibly-undefined string `v`: `undefined` and the
empty string are falsy. -/
def jsOrElse (v : Option String) (fb : String) : String :=
  match v with
  | some s => if s = "" then fb else s
  | none => fb

def mergeBatchedAux (contexts : List String) :
    List MovementEvent → ℕ → List MovementEvent
  | [], _ => []
  | m :: rest, idx =>
    { m with
      context := some (jsOrElse (contexts.get? idx)
        (if 15 ≤ idx then limitedFallback else noEventsFallback)) }
      :: mergeBatchedAux contexts rest (idx + 1)

def mergeBatched (movements : List MovementEvent) (contexts : List String) :
    List MovementEvent :=
  mergeBatchedAux contexts movements 0

/-- `fetchSwingsContext`'s result handling: the `try` block returns the
parsed reply array; the `catch` block (malformed reply) returns one fixed
fallback string per submitted movement.  A rejection of the provider call
itself happens before the `try` and escapes as an error. -/
def fetchSwingsContextResult (parsed : Option (List String))
    (movements : List MovementEvent) : List String :=
  match parsed with
  | some contexts => contexts
  | none => movements.map fun _ => "No specific event data found for this period."

/-! ### The analysis runs -/

/-- `` `Insufficient data found for ${ticker} in ${year}.` `` -/
def insufficientMsg (ticker : String) (year : ℤ) : String :=
  "Insufficient data found for " ++ ticker ++ " in " ++ toString year ++ "."

/-- Per-card `performAnalysis` up to the synchronous publication of the
initial AnalysisResult: validate the threshold, reject series shorter than
2 samples, otherwise segment (calendar-day variant).  Enrichment runs
afterwards against the published movements (`enrichPerCard`). -/
def analysisRunV1 (ticker : String) (year : ℤ) (percentage : ℚ)
    (data : List PricePoint) : Except String AnalysisResult :=
  let validatedPercentage := max 2 percentage
  if data.length < 2 then
    Except.error (insufficientMsg ticker year)
  else
    let target := validatedPercentage / 100
    Except.ok
      { ticker := ticker.toUpper
        year := year
        targetPercentage := validatedPercentage
        data := data
        movements := segmentV1 data target }

/-- Batched `performAnalysis`: validate the threshold, reject short series,
segment (index-distance variant), then — when any movement was found —
await the batched context request before publishing.  `ctxResp` is the
outcome of `fetchSwingsContext`: `Except.error` when the provider call
rejected (which propagates to the surrounding catch), `Except.ok` with the
reply strings otherwise. -/
def analysisRunV2 (ticker : String) (year : ℤ) (percentage : ℚ)
    (data : List PricePoint) (ctxResp : Except String (List String)) :
    Except String AnalysisResult :=
  let validatedPercentage := max 2 percentage
  if data.length < 2 then
    Except.error (insufficientMsg ticker year)
  else
    let target := validatedPercentage / 100
    let movements := segmentV2 data target
    if 0 < movements.length then
      match ctxResp with
      | Except.error e => Except.error e
      | Except.ok contexts =>
          Except.ok
            { ticker := ticker.toUpper
              year := year
              targetPercentage := validatedPercentage
              data := data
              movements := mergeBatched movements contexts }
    else
      Except.ok
        { ticker := ticker.toUpper
          year := year
          targetPercentage := validatedPercentage
          data := data
          movements := movements }

/-! ### fetchTickerHistory post-processing

`data.filter(item => item.date && item.price).sort((a, b) =>
a.date.localeCompare(b.date))`: the truthiness filter drops samples whose
date is the empty string or whose price is 0, then the survivors are sorted
by their ISO date strings. -/

structure RawItem where
  date : String
  price : ℚ
deriving DecidableEq, Repr

def keepSample (it : RawItem) : Bool :=
  (it.date != "") && (it.price != 0)

def fetchTickerHistoryClean (items : List RawItem) : List RawItem :=
  (items.filter keepSample).mergeSort fun a b => decide (a.date ≤ b.date)

/-! ### Word counting (for the 50-word explanation budget) -/

def splitWordsAux : List Char → List Char → List String
  | [], acc => [String.mk acc.reverse]
  | c :: rest, acc =>
    if c = ' ' then String.mk acc.reverse :: splitWordsAux rest []
    else splitWordsAux rest (c :: acc)

/-- Number of space-separated words, as `text.split(' ').length` counts
them. -/
def wordCount (s : String) : ℕ :=
  (splitWordsAux s.data []).length

/-! ### Concrete data for the spec's worked example -/

def jan1 : Date := ⟨2024, 1, 1⟩

def jan10 : Date := ⟨2024, 1, 10⟩

def feb1 : Date := ⟨2024, 2, 1⟩

/-- The spec's example series `[(01-01,100),(01-10,103),(02-01,80)]` (the
year is immaterial to the day spans involved). -/
def exampleSeries : List PricePoint :=
  [⟨jan1, 100⟩, ⟨jan10, 103⟩, ⟨feb1, 80⟩]

/-- The UP event the example series produces (+3% over 9 calendar days). -/
def exampleUpEvent : MovementEvent :=
  { startDate := jan1, endDate := jan10, startPrice := 100, endPrice := 103,
    type := MovementType.UP, percentageChange := 3, daysTaken := 9 }

/-- The DOWN event the calendar-day segmenter produces on the example series
(−2300/103 % ≈ −22.33% over 22 calendar days). -/
def exampleDownEvent : MovementEvent :=
  { startDate := jan10, endDate := feb1, startPrice := 103, endPrice := 80,
    type := MovementType.DOWN, percentageChange := -2300/103, daysTaken := 22 }

/-- A generic movement event used as input to the enrichment models. -/
def dummyEvent : MovementEvent :=
  { startDate := jan1, endDate := jan10, startPrice := 1, endPrice := 1,
    type := MovementType.UP, percentageChange := 0, daysTaken := 9 }

/-- A provider explanation of 51 words. -/
def longResponse : String :=
  String.intercalate " " (List.replicate 51 "w")

def rawKept : RawItem := ⟨"2024-01-02", 5⟩

def rawEmptyDate : RawItem := ⟨"", 3⟩

def rawZeroPrice : RawItem := ⟨"2024-01-03", 0⟩

/-! ### Helper lemmas -/

/-- At day resolution, the millisecond ceiling computation of the per-card
variant is exactly the calendar-day span. -/
lemma diffDaysJs_eq_calendarSpan (s e : Date) : diffDaysJs s e = calendarSpan s e := by
  have h1 : jsDateMs e - jsDateMs s
      = ((daysFromCivil e : ℤ) - (daysFromCivil s : ℤ)) * 86400000 := by
    unfold jsDateMs
    ring
  have h2 : (jsDateMs e - jsDateMs s).natAbs
      = ((daysFromCivil e : ℤ) - (daysFromCivil s : ℤ)).natAbs * 86400000 := by
    rw [h1, Int.natAbs_mul]
    rfl
  unfold diffDaysJs calendarSpan
  rw [h2]
  have h3 : ((((daysFromCivil e : ℤ) - (daysFromCivil s : ℤ)).natAbs * 86400000 : ℕ) : ℚ)
        / (1000 * 60 * 60 * 24)
      = ((((daysFromCivil e : ℤ) - (daysFromCivil s : ℤ)).natAbs : ℕ) : ℚ) := by
    push_cast
    rw [show ((1000 : ℚ) * 60 * 60 * 24) = 86400000 by norm_num]
    rw [mul_div_cancel_right₀ _ (by norm_num : (86400000 : ℚ) ≠ 0)]
  rw [h3, Int.ceil_natCast]
  omega

lemma segAuxV1_mem_percentage (t : ℚ) :
    ∀ (l : List PricePoint) (base : PricePoint) (e : MovementEvent),
      e ∈ segAuxV1 t l base → t ≤ |e.percentageChange| / 100 := by
  intro l
  induction l with
  | nil =>
    intro base e he
    simp [segAuxV1] at he
  | cons p rest ih =>
    intro base e he
    simp only [segAuxV1] at he
    by_cases hc : |(p.price - base.price) / base.price| ≥ t
    · rw [if_pos hc] at he
      rcases List.mem_cons.1 he with rfl | hmem
      · have habs : |((p.price - base.price) / base.price) * 100|
            = |(p.price - base.price) / base.price| * 100 := by
          rw [abs_mul]
          norm_num
        show t ≤ |((p.price - base.price) / base.price) * 100| / 100
        rw [habs, mul_div_cancel_right₀ _ (by norm_num : (100 : ℚ) ≠ 0)]
        exact hc
      · exact ih p e hmem
    · rw [if_neg hc] at he
      exact ih base e he

lemma segAuxV1_mem_daysTaken (t : ℚ) :
    ∀ (l : List PricePoint) (base : PricePoint) (e : MovementEvent),
      e ∈ segAuxV1 t l base → e.daysTaken = calendarSpan e.startDate e.endDate := by
  intro l
  induction l with
  | nil =>
    intro base e he
    simp [segAuxV1] at he
  | cons p rest ih =>
    intro base e he
    simp only [segAuxV1] at he
    by_cases hc : |(p.price - base.price) / base.price| ≥ t
    · rw [if_pos hc] at he
      rcases List.mem_cons.1 he with rfl | hmem
      · exact diffDaysJs_eq_calendarSpan base.date p.date
      · exact ih p e hmem
    · rw [if_neg hc] at he
      exact ih base e he

lemma segAuxV1_head_startDate (t : ℚ) :
    ∀ (l : List PricePoint) (base : PricePoint) (e : MovementEvent),
      (segAuxV1 t l base).head? = some e → e.startDate = base.date := by
  intro l
  induction l with
  | nil =>
    intro base e he
    simp [segAuxV1] at he
  | cons p rest ih =>
    intro base e he
    simp only [segAuxV1] at he
    by_cases hc : |(p.price - base.price) / base.price| ≥ t
    · rw [if_pos hc, List.head?_cons] at he
      cases he
      rfl
    · rw [if_neg hc] at he
      exact ih base e he

lemma segAuxV1_chain' (t : ℚ) :
    ∀ (l : List PricePoint) (base : PricePoint),
      List.Chain' (fun e f => e.endDate = f.startDate) (segAuxV1 t l base) := by
  intro l
  induction l with
  | nil =>
    intro base
    simp [segAuxV1]
  | cons p rest ih =>
    intro base
    simp only [segAuxV1]
    by_cases hc : |(p.price - base.price) / base.price| ≥ t
    · rw [if_pos hc]
      refine List.chain'_cons'.2 ⟨?_, ih p⟩
      intro f hf
      exact (segAuxV1_head_startDate t rest p f hf).symm
    · rw [if_neg hc]
      exact ih base

lemma segAux_strip (t : ℚ) :
    ∀ (l : List PricePoint) (base : PricePoint) (i baseIdx : ℕ),
      (segAuxV1 t l base).map stripEvent = (segAuxV2 t l i base baseIdx).map stripEvent := by
  intro l
  induction l with
  | nil =>
    intro base i baseIdx
    simp [segAuxV1, segAuxV2]
  | cons p rest ih =>
    intro base i baseIdx
    simp only [segAuxV1, segAuxV2]
    by_cases hc : |(p.price - base.price) / base.price| ≥ t
    · rw [if_pos hc, if_pos hc, List.map_cons, List.map_cons, ih p (i + 1) i]
      rfl
    · rw [if_neg hc, if_neg hc]
      exact ih base (i + 1) baseIdx

/-- The two segmentation variants agree on everything but `daysTaken`. -/
lemma segment_strip (data : List PricePoint) (t : ℚ) :
    (segmentV1 data t).map stripEvent = (segmentV2 data t).map stripEvent := by
  cases data with
  | nil => rfl
  | cons base rest => exact segAux_strip t rest base 1 0

lemma segmentV1_mem_percentage (data : List PricePoint) (t : ℚ) (e : MovementEvent)
    (he : e ∈ segmentV1 data t) : t ≤ |e.percentageChange| / 100 := by
  cases data with
  | nil => simp [segmentV1] at he
  | cons base rest => exact segAuxV1_mem_percentage t rest base e he

lemma segmentV2_mem_percentage (data : List PricePoint) (t : ℚ) (e : MovementEvent)
    (he : e ∈ segmentV2 data t) : t ≤ |e.percentageChange| / 100 := by
  have h1 : stripEvent e ∈ (segmentV2 data t).map stripEvent :=
    List.mem_map_of_mem _ he
  rw [← segment_strip] at h1
  obtain ⟨f, hf, hst⟩ := List.mem_map.1 h1
  have hpc : f.percentageChange = e.percentageChange :=
    congrArg EventCore.percentageChange hst
  rw [← hpc]
  exact segmentV1_mem_percentage data t f hf

lemma segmentV1_chain' (data : List PricePoint) (t : ℚ) :
    List.Chain' (fun e f => e.endDate = f.startDate) (segmentV1 data t) := by
  cases data with
  | nil => simp [segmentV1]
  | cons base rest => exact segAuxV1_chain' t rest base

lemma segmentV2_chain' (data : List PricePoint) (t : ℚ) :
    List.Chain' (fun e f => e.endDate = f.startDate) (segmentV2 data t) := by
  have h1 : List.Chain' (fun a b : EventCore => a.endDate = b.startDate)
      ((segmentV2 data t).map stripEvent) := by
    rw [← segment_strip]
    rw [List.chain'_map]
    exact segmentV1_chain' data t
  rw [List.chain'_map] at h1
  exact h1

lemma enrichPerCardAux_get?_ge (res : ℕ → String) (k : ℕ) :
    ∀ (l : List MovementEvent) (idx j : ℕ), k ≤ idx + j →
      (enrichPerCardAux res k l idx).get? j = l.get? j := by
  intro l
  induction l with
  | nil =>
    intro idx j _
    simp [enrichPerCardAux]
  | cons m rest ih =>
    intro idx j h
    cases j with
    | zero =>
      simp only [enrichPerCardAux, List.get?_cons_zero]
      rw [if_neg (by omega)]
    | succ j' =>
      simp only [enrichPerCardAux, List.get?_cons_succ]
      exact ih (idx + 1) j' (by omega)

lemma mergeBatchedAux_get?_ge (contexts : List String) (hlen : contexts.length ≤ 15) :
    ∀ (l : List MovementEvent) (idx j : ℕ) (m : MovementEvent), 15 ≤ idx + j →
      (mergeBatchedAux contexts l idx).get? j = some m →
      m.context = some limitedFallback := by
  intro l
  induction l with
  | nil =>
    intro idx j m _ hm
    simp [mergeBatchedAux] at hm
  | cons ev rest ih =>
    intro idx j m h hm
    cases j with
    | zero =>
      simp only [mergeBatchedAux, List.get?_cons_zero, Option.some.injEq] at hm
      subst hm
      have hidx : 15 ≤ idx := by omega
      have hnone : contexts.get? idx = none :=
        List.get?_eq_none.2 (by omega)
      show some (jsOrElse (contexts.get? idx)
          (if 15 ≤ idx then limitedFallback else noEventsFallback)) = some limitedFallback
      rw [hnone, if_pos hidx]
      rfl
    | succ j' =>
      simp only [mergeBatchedAux, List.get?_cons_succ] at hm
      exact ih (idx + 1) j' m (by omega) hm

lemma settleAll_complete (outcomes : List Bool) :
    ∀ c : ℤ, (outcomes.length : ℤ) ≤ c →
      settleAll outcomes c = c - outcomes.length := by
  induction outcomes with
  | nil =>
    intro c _
    simp [settleAll]
  | cons b rest ih =>
    intro c h
    have hlen : ((b :: rest).length : ℤ) = (rest.length : ℤ) + 1 := by
      push_cast [List.length_cons]
      ring
    have hstep : settleStep c = c - 1 := by
      unfold settleStep
      rw [max_eq_right]
      rw [hlen] at h
      omega
    have h2 : (rest.length : ℤ) ≤ c - 1 := by
      rw [hlen] at h
      omega
    calc settleAll (b :: rest) c = settleAll rest (settleStep c) := rfl
    _ = settleAll rest (c - 1) := by rw [hstep]
    _ = c - 1 - rest.length := ih (c - 1) h2
    _ = c - (b :: rest).length := by
        rw [hlen]
        ring

lemma diffDaysJs_jan1_jan10 : diffDaysJs jan1 jan10 = 9 := by
  rw [diffDaysJs_eq_calendarSpan]
  decide

lemma diffDaysJs_jan10_feb1 : diffDaysJs jan10 feb1 = 22 := by
  rw [diffDaysJs_eq_calendarSpan]
  decide

/-- The per-card (calendar-day) segmentation on the spec's example series:
two events, +3% over 9 calendar days and −2300/103 % (≈ −22.33%) over 22
calendar days. -/
lemma segmentV1_example :
    segmentV1 exampleSeries (2/100) = [exampleUpEvent, exampleDownEvent] := by
  have c1 : |((103 : ℚ) - 100) / 100| ≥ 2/100 := by
    rw [abs_div]
    norm_num
  have t1 : (0 : ℚ) < (103 - 100) / 100 := by norm_num
  have c2 : |((80 : ℚ) - 103) / 103| ≥ 2/100 := by
    rw [abs_div]
    norm_num
  have t2 : ¬ ((0 : ℚ) < (80 - 103) / 103) := by norm_num
  show segAuxV1 (2/100) [⟨jan10, 103⟩, ⟨feb1, 80⟩] ⟨jan1, 100⟩ = _
  rw [segAuxV1]
  simp only
  rw [if_pos c1, if_pos t1, segAuxV1]
  simp only
  rw [if_pos c2, if_neg t2, segAuxV1]
  norm_num [diffDaysJs_jan1_jan10, diffDaysJs_jan10_feb1, exampleUpEvent, exampleDownEvent]

/-- The batched (index-distance) segmentation on the same series: the same
two swings, but `daysTaken` is 1 and 1 (the sample-index distance). -/
lemma segmentV2_example :
    segmentV2 exampleSeries (2/100)
      = [{ startDate := jan1, endDate := jan10, startPrice := 100, endPrice := 103,
           type := MovementType.UP, percentageChange := 3, daysTaken := 1 },
         { startDate := jan10, endDate := feb1, startPrice := 103, endPrice := 80,
           type := MovementType.DOWN, percentageChange := -2300/103, daysTaken := 1 }] := by
  have c1 : |((103 : ℚ) - 100) / 100| ≥ 2/100 := by
    rw [abs_div]
    norm_num
  have t1 : (0 : ℚ) < (103 - 100) / 100 := by norm_num
  have c2 : |((80 : ℚ) - 103) / 103| ≥ 2/100 := by
    rw [abs_div]
    norm_num
  have t2 : ¬ ((0 : ℚ) < (80 - 103) / 103) := by norm_num
  show segAuxV2 (2/100) [⟨jan10, 103⟩, ⟨feb1, 80⟩] 1 ⟨jan1, 100⟩ 0 = _
  rw [segAuxV2]
  simp only
  rw [if_pos c1, if_pos t1, segAuxV2]
  simp only
  rw [if_pos c2, if_neg t2, segAuxV2]
  norm_num

/-- The index-distance segmentation on a two-point series that clears a 2%
threshold (used to evaluate the batched run). -/
lemma segmentV2_pair :
    segmentV2 [⟨jan1, 100⟩, ⟨jan10, 103⟩] (max 2 (2 : ℚ) / 100)
      = [{ startDate := jan1, endDate := jan10, startPrice := 100, endPrice := 103,
           type := MovementType.UP, percentageChange := 3, daysTaken := 1 }] := by
  have hmax : max (2 : ℚ) 2 / 100 = 2/100 := by norm_num
  have c1 : |((103 : ℚ) - 100) / 100| ≥ 2/100 := by
    rw [abs_div]
    norm_num
  have t1 : (0 : ℚ) < (103 - 100) / 100 := by norm_num
  rw [hmax]
  show segAuxV2 (2/100) [⟨jan10, 103⟩] 1 ⟨jan1, 100⟩ 0 = _
  rw [segAuxV2]
  simp only
  rw [if_pos c1, if_pos t1, segAuxV2]
  norm_num

/-! ### Claims -/

/-- C1: for every sorted price series of length ≥ 2 and every threshold
fraction t ≥ 0.02, every MovementEvent emitted by either segmentation pass
satisfies `|percentageChange| / 100 ≥ t`. -/
theorem claim1_threshold_bound (data : List PricePoint) (t : ℚ)
    (_hsorted : sortedByDate data) (_hlen : 2 ≤ data.length) (_ht : 2/100 ≤ t) :
    ∀ e : MovementEvent, (e ∈ segmentV1 data t ∨ e ∈ segmentV2 data t) →
      t ≤ |e.percentageChange| / 100 := by
  intro e he
  rcases he with h | h
  · exact segmentV1_mem_percentage data t e h
  · exact segmentV2_mem_percentage data t e h

theorem claim1_threshold_bound_witness :
    (2/100 : ℚ) ≤ |exampleUpEvent.percentageChange| / 100 :=
  claim1_threshold_bound exampleSeries (2/100)
    (by
      unfold sortedByDate
      simp only [exampleSeries, List.chain'_cons, List.chain'_singleton, and_true]
      exact ⟨by decide, by decide⟩)
    (by decide) (le_refl _)
    exampleUpEvent (Or.inl (by rw [segmentV1_example]; exact List.mem_cons_self _ _))

/-- C2: in every run of either segmentation pass the emitted events are
contiguous — each event's endDate is the next event's startDate. -/
theorem claim2_contiguity (data : List PricePoint) (t : ℚ) :
    List.Chain' (fun e f => e.endDate = f.startDate) (segmentV1 data t) ∧
    List.Chain' (fun e f => e.endDate = f.startDate) (segmentV2 data t) :=
  ⟨segmentV1_chain' data t, segmentV2_chain' data t⟩

/-- C3: on the spec's example series with threshold 2% the calendar-day
segmenter emits exactly the two claimed events — UP +3% with `daysTaken` 9
and DOWN −2300/103 % (≈ −22.33%) with `daysTaken` 22, both equal to the true
calendar-day span — while the index-distance segmenter emits the same two
swings with `daysTaken` 1 and 1 (the sample-index distance), violating the
claim. -/
theorem claim3_daysTaken_calendar :
    segmentV1 exampleSeries (2/100) = [exampleUpEvent, exampleDownEvent] ∧
    exampleUpEvent.daysTaken = calendarSpan exampleUpEvent.startDate exampleUpEvent.endDate ∧
    exampleDownEvent.daysTaken = calendarSpan exampleDownEvent.startDate exampleDownEvent.endDate ∧
    exampleUpEvent.daysTaken = 9 ∧
    exampleDownEvent.daysTaken = 22 ∧
    (segmentV2 exampleSeries (2/100)).map MovementEvent.daysTaken = [1, 1] ∧
    ([1, 1] : List ℕ) ≠ [9, 22] := by
  refine ⟨segmentV1_example, by decide, by decide, by decide, by decide, ?_, by decide⟩
  rw [segmentV2_example]
  rfl

/-- C4: the two segmentation variants are equivalent except for `daysTaken`:
on every series and threshold they emit the same number of events, which
agree at every index on startDate, endDate, startPrice, endPrice, type,
percentageChange (and context); only the `daysTaken` computation differs
(millisecond/calendar arithmetic in `segAuxV1`, index distance in
`segAuxV2`). -/
theorem claim4_variants_agree_except_daysTaken (data : List PricePoint) (t : ℚ) :
    (segmentV1 data t).map stripEvent = (segmentV2 data t).map stripEvent ∧
    (segmentV1 data t).length = (segmentV2 data t).length := by
  refine ⟨segment_strip data t, ?_⟩
  have h := congrArg List.length (segment_strip data t)
  simpa using h

/-- C5 counterexample: with 16 segmented events, the per-card enrichment
(src lines 220–237) submits only the first 15; after every request settles,
the event at index 15 still has no context at all — it does not receive the
fixed "limited" fallback string the claim promises. -/
theorem claim5_counterexample :
    (enrichPerCard (List.replicate 16 dummyEvent) fun _ => "ctx").get? 15
        = some dummyEvent ∧
    dummyEvent.context ≠ some limitedFallback := by
  constructor
  · rw [enrichPerCard]
    rw [enrichPerCardAux_get?_ge _ _ _ 0 15 (by simp [movesToResearch])]
    rfl
  · simp [dummyEvent]

/-- C5 (amended): both variants submit only the first `min 15 n` events for
explanation (at most 15 requests); an event at index ≥ 15 never receives a
real explanation from a submitted request — the per-card variant leaves it
untouched (no context), while the batched variant gives it the fixed
"limited" fallback whenever the provider reply has at most 15 entries. -/
theorem claim5_cap_amended (movements : List MovementEvent) (resolved : ℕ → String)
    (contexts : List String) (idx : ℕ) (m : MovementEvent)
    (hidx : 15 ≤ idx) (hlen : contexts.length ≤ 15)
    (hm : (mergeBatched movements contexts).get? idx = some m) :
    (movesToResearch movements).length ≤ 15 ∧
    movesToResearch movements = movements.take 15 ∧
    movementsToContextualize movements = movements.take 15 ∧
    (enrichPerCard movements resolved).get? idx = movements.get? idx ∧
    m.context = some limitedFallback := by
  have hcap : (movesToResearch movements).length ≤ 15 := by
    simp only [movesToResearch, List.length_take]
    exact min_le_left _ _
  refine ⟨hcap, rfl, rfl, ?_, ?_⟩
  · exact enrichPerCardAux_get?_ge resolved _ movements 0 idx (by omega)
  · exact mergeBatchedAux_get?_ge contexts hlen movements 0 idx m (by omega) hm

theorem claim5_cap_amended_witness :
    (movesToResearch (List.replicate 16 dummyEvent)).length ≤ 15 ∧
    movesToResearch (List.replicate 16 dummyEvent) = (List.replicate 16 dummyEvent).take 15 ∧
    movementsToContextualize (List.replicate 16 dummyEvent)
      = (List.replicate 16 dummyEvent).take 15 ∧
    (enrichPerCard (List.replicate 16 dummyEvent) fun _ => "ctx").get? 15
      = (List.replicate 16 dummyEvent).get? 15 ∧
    ({ dummyEvent with context := some limitedFallback } : MovementEvent).context
      = some limitedFallback :=
  claim5_cap_amended (List.replicate 16 dummyEvent) (fun _ => "ctx") [] 15
    { dummyEvent with context := some limitedFallback } (by decide) (by decide) rfl

/-- C6: in the batched variant (src lines 574–583 with `fetchSwingsContext`),
a rejection of the provider call is NOT absorbed: on a two-point series that
produces a swing, the whole run aborts with the provider's error and no
AnalysisResult is published — the error escapes the orchestrator, contrary
to the claim.  Only a malformed (unparseable) reply is absorbed, by
`fetchSwingsContext`'s catch block, which resolves every submitted event to
a fixed fallback string. -/
theorem claim6_provider_error_escapes :
    analysisRunV2 "BTC" 2024 2 [⟨jan1, 100⟩, ⟨jan10, 103⟩]
        (Except.error "Provider request failed")
      = Except.error "Provider request failed" ∧
    fetchSwingsContextResult none [dummyEvent]
      = ["No specific event data found for this period."] := by
  constructor
  · simp only [analysisRunV2]
    rw [if_neg (by decide), segmentV2_pair]
    rfl
  · rfl

/-- C7: the outstanding-research counter starts at `min 15 n` (the number of
submitted requests) and, after any complete settlement sequence — any order,
any mix of outcomes — ends at exactly 0. -/
theorem claim7_counter_reaches_zero (movements : List MovementEvent)
    (outcomes : List Bool)
    (hcomplete : outcomes.length = (movesToResearch movements).length) :
    activeResearchInit movements = min 15 (movements.length : ℤ) ∧
    settleAll outcomes (activeResearchInit movements) = 0 := by
  have hZ : (outcomes.length : ℤ) = ((movesToResearch movements).length : ℤ) := by
    exact_mod_cast hcomplete
  constructor
  · simp only [activeResearchInit, movesToResearch, List.length_take]
    push_cast
    rfl
  · rw [settleAll_complete outcomes (activeResearchInit movements)
      (by rw [hZ]; exact le_refl _)]
    rw [hZ]
    simp [activeResearchInit]

theorem claim7_counter_reaches_zero_witness :
    activeResearchInit (List.replicate 3 dummyEvent)
      = min 15 (((List.replicate 3 dummyEvent).length : ℕ) : ℤ) ∧
    settleAll [true, false, true] (activeResearchInit (List.replicate 3 dummyEvent)) = 0 :=
  claim7_counter_reaches_zero (List.replicate 3 dummyEvent) [true, false, true] (by decide)

set_option maxRecDepth 8000 in
/-- C8: the merge code that is present in the sources (the batched variant's
`contexts[idx] || ...` merge fed by `fetchSwingsContext`, which returns the
parsed reply verbatim) applies no 50-word truncation: a 51-word provider
response is merged into the event's context unchanged, with no ellipsis. -/
theorem claim8_no_truncation_in_batched_merge :
    (mergeBatched [dummyEvent] [longResponse]).get? 0
      = some { dummyEvent with context := some longResponse } ∧
    50 < wordCount longResponse := by
  constructor
  · rfl
  · decide

/-- C9: a fetched series with fewer than 2 points makes both pipeline
variants fail with the insufficient-data error and produce no
AnalysisResult, while with 2 or more points the segmentation stage always
succeeds (its only failure mode is the length check; the batched variant can
only fail later, at enrichment). -/
theorem claim9_insufficient_data (ticker : String) (year : ℤ) (pct : ℚ)
    (data : List PricePoint) (ctxResp : Except String (List String)) :
    (data.length < 2 →
      analysisRunV1 ticker year pct data = Except.error (insufficientMsg ticker year) ∧
      analysisRunV2 ticker year pct data ctxResp
        = Except.error (insufficientMsg ticker year)) ∧
    (2 ≤ data.length →
      analysisRunV1 ticker year pct data
        = Except.ok
            { ticker := ticker.toUpper, year := year, targetPercentage := max 2 pct,
              data := data, movements := segmentV1 data (max 2 pct / 100) } ∧
      ∀ ctxs : List String, ∃ r,
        analysisRunV2 ticker year pct data (Except.ok ctxs) = Except.ok r) := by
  constructor
  · intro h
    constructor
    · simp only [analysisRunV1]
      rw [if_pos h]
    · simp only [analysisRunV2]
      rw [if_pos h]
  · intro h
    constructor
    · simp only [analysisRunV1]
      rw [if_neg (by omega)]
    · intro ctxs
      simp only [analysisRunV2]
      rw [if_neg (by omega)]
      by_cases hm : 0 < (segmentV2 data (max 2 pct / 100)).length
      · rw [if_pos hm]
        exact ⟨_, rfl⟩
      · rw [if_neg hm]
        exact ⟨_, rfl⟩

theorem claim9_insufficient_data_witness :
    analysisRunV1 "BTC" 2024 5 [] = Except.error (insufficientMsg "BTC" 2024) ∧
    analysisRunV2 "BTC" 2024 5 [] (Except.ok []) = Except.error (insufficientMsg "BTC" 2024) :=
  (claim9_insufficient_data "BTC" 2024 5 [] (Except.ok [])).1 (by decide)

/-- C10: `fetchTickerHistory`'s truthiness filter also removes present-but-
falsy fields, so every sample surviving the filter-and-sort has a non-empty
date string and a nonzero price. -/
theorem claim10_truthiness_filter (items : List RawItem) (x : RawItem)
    (hx : x ∈ fetchTickerHistoryClean items) :
    x.date ≠ "" ∧ x.price ≠ 0 := by
  have h1 : x ∈ items.filter keepSample := List.mem_mergeSort.1 hx
  have h2 : keepSample x = true := List.of_mem_filter h1
  simp only [keepSample, Bool.and_eq_true, bne_iff_ne, ne_eq] at h2
  exact ⟨h2.1, h2.2⟩

theorem claim10_truthiness_filter_witness :
    rawKept.date ≠ "" ∧ rawKept.price ≠ 0 :=
  claim10_truthiness_filter [rawEmptyDate, rawKept, rawZeroPrice] rawKept
    (by
      rw [fetchTickerHistoryClean, List.mem_mergeSort]
      norm_num [List.filter_cons, List.filter_nil, keepSample, bne, beq_iff_eq,
        rawKept, rawEmptyDate, rawZeroPrice]
      decide)

end CryptoSwing
